import Mathlib

/-!
Verification of the message-routing and relevance-scoring core of an
FAQ + AI-fallback customer-support chatbot.

The embedding models Python strings as lists of characters, so that every
operation is structurally recursive and kernel-computable.  The relevance
score accumulated by the source in floating-point steps of 2, 1 and 0.5 is
an exact integer multiple of one half, so it is tracked as a count of
half-units in Nat (definition scoreHalves); the actual score value is that
count divided by two, as a rational (definition score).  The match
threshold 20 of the source corresponds to 40 half-units.
-/

/-- A Python string, modelled as its list of characters. -/
abbrev Str := List Char

/-- Python str.lower, per character (ASCII range, as used by the corpus). -/
def toLowerStr (s : Str) : Str := s.map Char.toLower

/-- One step of whitespace splitting, folded from the right: accumulates the
current word and the list of completed words. -/
def splitStep (c : Char) (acc : Str × List Str) : Str × List Str :=
  if c.isWhitespace then
    if acc.1 = [] then acc else ([], acc.1 :: acc.2)
  else (c :: acc.1, acc.2)

/-- Python str.split with no arguments: split on whitespace runs, discarding
empty pieces. -/
def pySplit (s : Str) : List Str :=
  let r := s.foldr splitStep ([], [])
  if r.1 = [] then r.2 else r.1 :: r.2

/-- Python str.strip with no arguments: drop whitespace at both ends. -/
def pyStrip (s : Str) : Str :=
  ((s.dropWhile Char.isWhitespace).reverse.dropWhile Char.isWhitespace).reverse

/-- Python substring membership: needle in hay. -/
def strContains (hay needle : Str) : Bool :=
  (List.range (hay.length + 1)).any (fun i => needle.isPrefixOf (hay.drop i))

/-- One FAQ corpus record (faq_search.py row): question, answer, and the
optional keywords CSV cell (none models a missing or NaN cell; the source
splits the cell text on whitespace to obtain the keyword list). -/
structure FAQRecord where
  question : Str
  answer : Str
  keywords : Option Str
deriving DecidableEq

/-- Number of word pairs (q, f) with q a substring of f or f a substring of
q, mirroring the nested for-loops of search_faq that add a constant per
matching pair. -/
def countPairs (qws fws : List Str) : Nat :=
  (qws.map (fun q => (fws.filter (fun f => strContains f q || strContains q f)).length)).sum

/-- The relevance score of one record against the lowercased query, counted
in half-units: the source adds 2 per question-word pair (4 halves), 1 per
keyword hit (2 halves) and 0.5 per answer-word pair (1 half).
Embeds the per-record loop body of FAQSearch.search_faq. -/
def scoreHalves (queryLower : Str) (r : FAQRecord) : Nat :=
  let queryWords := pySplit queryLower
  let questionWords := pySplit (toLowerStr r.question)
  let questionHalves := 4 * countPairs queryWords questionWords
  let keywordHalves :=
    match r.keywords with
    | none => 0
    | some ks =>
        2 * (((pySplit ks).map (fun k => toLowerStr (pyStrip k))).filter
          (fun k => strContains queryLower k)).length
  let answerWords := pySplit (toLowerStr r.answer)
  let answerHalves := countPairs queryWords answerWords
  questionHalves + keywordHalves + answerHalves

/-- The relevance score as the source computes it (a float that is an exact
multiple of one half): the half-unit count divided by two. -/
def score (queryLower : Str) (r : FAQRecord) : ℚ :=
  (scoreHalves queryLower r : ℚ) / 2

/-- The no-match sentinel of search_faq: the empty string. -/
def NO_MATCH : Str := []

/-- One iteration of the best-match scan of search_faq: strict greater-than,
so ties keep the earlier record. -/
def scanStep (queryLower : Str) (acc : Option FAQRecord × Nat) (r : FAQRecord) :
    Option FAQRecord × Nat :=
  let s := scoreHalves queryLower r
  if s > acc.2 then (some r, s) else acc

/-- FAQSearch.search_faq: empty corpus yields NO_MATCH; otherwise scan all
records tracking the best score, and return the best answer only when the
best score strictly exceeds the threshold (20 points = 40 half-units). -/
def search_faq (corpus : List FAQRecord) (query : Str) : Str :=
  if corpus.isEmpty then NO_MATCH
  else
    let queryLower := toLowerStr query
    let best := corpus.foldl (scanStep queryLower) (none, 0)
    match best.1 with
    | some r => if best.2 > 40 then r.answer else NO_MATCH
    | none => NO_MATCH

/-- One conversation turn as stored in the session history by app.py. -/
structure Turn where
  user : Str
  assistant : Str
  source : Str
  timestamp : Str
deriving DecidableEq

/-- An apostrophe character, used inside fixed message texts. -/
def apos : Str := [Char.ofNat 39]

/-- The fixed system prompt of GeminiAI. -/
def systemPrompt : Str :=
  ("You are a helpful AI customer support assistant for Unthinkable Solutions. \n\nYour role:\n- Provide accurate, helpful responses to customer queries\n- Be polite, professional, and empathetic\n- Keep responses concise but informative\n- If you don").data ++ apos ++
  ("t know something, acknowledge it and offer to help find the answer\n- Always end with asking if there").data ++ apos ++
  ("s anything else you can help with\n\nGuidelines:\n- Be friendly and approachable\n- Use simple, clear language\n- Provide step-by-step instructions when helpful\n- Ask clarifying questions when needed\n- Maintain a positive tone throughout the conversation").data

/-- The apology text prefixed to the underlying error message when the
generation call fails in GeminiAI.generate_response. -/
def apologyPrefix : Str :=
  ("I apologize, but I").data ++ apos ++
  ("m experiencing technical difficulties. Please try again or contact our support team directly. Error: ").data

/-- Rendering of one history turn inside the prompt context. -/
def renderTurn (t : Turn) : Str :=
  ("User: ").data ++ t.user ++ ("\nAssistant: ").data ++ t.assistant ++ ("\n\n").data

/-- The prompt-context assembly of GeminiAI.generate_response: system prompt,
then (when history is non-empty) a header and the last five turns, then the
current message under its own label. -/
def build_context (history : List Turn) (userMessage : Str) : Str :=
  let base := systemPrompt ++ ("\n\n").data
  let withHistory :=
    if history.isEmpty then base
    else base ++ ("Previous conversation:\n").data ++
      ((history.drop (history.length - 5)).map renderTurn).flatten
  withHistory ++ ("Current user message: ").data ++ userMessage

/-- GeminiAI.generate_response: the external generation client is a
parameter returning either the response text or the message of a raised
error; any error is converted into the apology string embedding it. -/
def generate_response (client : Str → Except Str Str) (userMessage : Str)
    (history : List Turn) : Str :=
  match client (build_context history userMessage) with
  | Except.ok text => text
  | Except.error e => apologyPrefix ++ e

/-- The core of the /chat handler of app.py for one validated turn: try the
FAQ matcher; on the empty reply fall back to the AI generator (source
Gemini AI), otherwise keep the FAQ answer (source FAQ); append exactly one
new entry to the history and return (reply, source, updated history). -/
def handle_turn (corpus : List FAQRecord) (ai : Str → List Turn → Str)
    (history : List Turn) (message : Str) (now : Str) :
    Str × Str × List Turn :=
  let faqReply := search_faq corpus message
  let rs : Str × Str :=
    if faqReply = NO_MATCH then (ai message history, ("Gemini AI").data)
    else (faqReply, ("FAQ").data)
  (rs.1, rs.2, history ++ [⟨message, rs.1, rs.2, now⟩])

/-- The scoring algorithm as the specification states it: 2 per
substring-related (query word, question word) pair, 1 per trimmed lowercased
keyword occurring in the lowercased query (0 with no keywords), 0.5 per
substring-related (query word, answer word) pair. -/
def specScore (query : Str) (r : FAQRecord) : ℚ :=
  let qws := pySplit (toLowerStr query)
  let fws := pySplit (toLowerStr r.question)
  let aws := pySplit (toLowerStr r.answer)
  let kws :=
    match r.keywords with
    | none => []
    | some ks => (pySplit ks).map (fun k => toLowerStr (pyStrip k))
  2 * (((qws ×ˢ fws).filter
        (fun p => strContains p.2 p.1 || strContains p.1 p.2)).length : ℚ)
    + ((kws.filter (fun k => strContains (toLowerStr query) k)).length : ℚ)
    + (1 / 2) * (((qws ×ˢ aws).filter
        (fun p => strContains p.2 p.1 || strContains p.1 p.2)).length : ℚ)

/-! Bridging lemmas between the rational score and its half-unit count. -/

lemma score_le_20_iff (ql : Str) (r : FAQRecord) :
    score ql r ≤ 20 ↔ scoreHalves ql r ≤ 40 := by
  unfold score
  constructor
  · intro h
    have h2 : (scoreHalves ql r : ℚ) ≤ 40 := by linarith
    exact_mod_cast h2
  · intro h
    have h2 : (scoreHalves ql r : ℚ) ≤ 40 := by exact_mod_cast h
    linarith

lemma twenty_lt_score_iff (ql : Str) (r : FAQRecord) :
    20 < score ql r ↔ 40 < scoreHalves ql r := by
  unfold score
  constructor
  · intro h
    have h2 : (40 : ℚ) < (scoreHalves ql r : ℚ) := by linarith
    exact_mod_cast h2
  · intro h
    have h2 : (40 : ℚ) < (scoreHalves ql r : ℚ) := by exact_mod_cast h
    linarith

lemma score_lt_score_iff (ql : Str) (r s : FAQRecord) :
    score ql r < score ql s ↔ scoreHalves ql r < scoreHalves ql s := by
  unfold score
  constructor
  · intro h
    have h2 : (scoreHalves ql r : ℚ) < (scoreHalves ql s : ℚ) := by linarith
    exact_mod_cast h2
  · intro h
    have h2 : (scoreHalves ql r : ℚ) < (scoreHalves ql s : ℚ) := by exact_mod_cast h
    linarith

lemma score_le_score_iff (ql : Str) (r s : FAQRecord) :
    score ql r ≤ score ql s ↔ scoreHalves ql r ≤ scoreHalves ql s := by
  unfold score
  constructor
  · intro h
    have h2 : (scoreHalves ql r : ℚ) ≤ (scoreHalves ql s : ℚ) := by linarith
    exact_mod_cast h2
  · intro h
    have h2 : (scoreHalves ql r : ℚ) ≤ (scoreHalves ql s : ℚ) := by exact_mod_cast h
    linarith

lemma score_eq_score_iff (ql : Str) (r s : FAQRecord) :
    score ql r = score ql s ↔ scoreHalves ql r = scoreHalves ql s := by
  unfold score
  constructor
  · intro h
    have h2 : (scoreHalves ql r : ℚ) = (scoreHalves ql s : ℚ) := by linarith
    exact_mod_cast h2
  · intro h
    rw [h]

/-! Lemmas about the best-match scan of search_faq. -/

lemma foldl_scan_stay (ql : Str) (l : List FAQRecord) (acc : Option FAQRecord × Nat)
    (h : ∀ s ∈ l, scoreHalves ql s ≤ acc.2) :
    l.foldl (scanStep ql) acc = acc := by
  induction l with
  | nil => rfl
  | cons x xs ih =>
      have hx : scoreHalves ql x ≤ acc.2 := h x (List.mem_cons_self x xs)
      have hstep : scanStep ql acc x = acc := by
        simp only [scanStep]
        rw [if_neg (not_lt.mpr hx)]
      rw [List.foldl_cons, hstep]
      exact ih (fun s hs => h s (List.mem_cons_of_mem x hs))

lemma foldl_scan_le (ql : Str) (c : Nat) (l : List FAQRecord) :
    ∀ acc : Option FAQRecord × Nat, acc.2 ≤ c → (∀ s ∈ l, scoreHalves ql s ≤ c) →
      (l.foldl (scanStep ql) acc).2 ≤ c := by
  induction l with
  | nil => intro acc hacc _; exact hacc
  | cons x xs ih =>
      intro acc hacc h
      rw [List.foldl_cons]
      apply ih
      · simp only [scanStep]
        split
        · exact h x (List.mem_cons_self x xs)
        · exact hacc
      · exact fun s hs => h s (List.mem_cons_of_mem x hs)

lemma foldl_scan_lt (ql : Str) (c : Nat) (l : List FAQRecord) :
    ∀ acc : Option FAQRecord × Nat, acc.2 < c → (∀ s ∈ l, scoreHalves ql s < c) →
      (l.foldl (scanStep ql) acc).2 < c := by
  induction l with
  | nil => intro acc hacc _; exact hacc
  | cons x xs ih =>
      intro acc hacc h
      rw [List.foldl_cons]
      apply ih
      · simp only [scanStep]
        split
        · exact h x (List.mem_cons_self x xs)
        · exact hacc
      · exact fun s hs => h s (List.mem_cons_of_mem x hs)

lemma foldl_scan_unique (ql : Str) (r : FAQRecord) (l : List FAQRecord) :
    ∀ acc : Option FAQRecord × Nat, r ∈ l → acc.2 < scoreHalves ql r →
      (∀ s ∈ l, s ≠ r → scoreHalves ql s < scoreHalves ql r) →
      l.foldl (scanStep ql) acc = (some r, scoreHalves ql r) := by
  induction l with
  | nil => intro acc hmem; cases hmem
  | cons x xs ih =>
      intro acc hmem hacc hmax
      by_cases hx : x = r
      · subst hx
        rw [List.foldl_cons]
        have hstep : scanStep ql acc x = (some x, scoreHalves ql x) := by
          simp only [scanStep]
          rw [if_pos hacc]
        rw [hstep]
        apply foldl_scan_stay
        intro s hs
        by_cases hsr : s = x
        · subst hsr; exact le_refl _
        · exact le_of_lt (hmax s (List.mem_cons_of_mem x hs) hsr)
      · have hmem2 : r ∈ xs := by
          rcases List.mem_cons.mp hmem with h1 | h2
          · exact absurd h1.symm hx
          · exact h2
        rw [List.foldl_cons]
        have hacc2 : (scanStep ql acc x).2 < scoreHalves ql r := by
          simp only [scanStep]
          split
          · exact hmax x (List.mem_cons_self x xs) hx
          · exact hacc
        exact ih (scanStep ql acc x) hmem2 hacc2
          (fun s hs hne => hmax s (List.mem_cons_of_mem x hs) hne)

lemma foldl_scan_first (ql : Str) (r : FAQRecord) (pre rest : List FAQRecord)
    (acc : Option FAQRecord × Nat)
    (hacc : acc.2 < scoreHalves ql r)
    (hpre : ∀ s ∈ pre, scoreHalves ql s < scoreHalves ql r)
    (hrest : ∀ s ∈ rest, scoreHalves ql s ≤ scoreHalves ql r) :
    (pre ++ r :: rest).foldl (scanStep ql) acc = (some r, scoreHalves ql r) := by
  rw [List.foldl_append]
  have h1 : (pre.foldl (scanStep ql) acc).2 < scoreHalves ql r :=
    foldl_scan_lt ql (scoreHalves ql r) pre acc hacc hpre
  rw [List.foldl_cons]
  have hstep : scanStep ql (pre.foldl (scanStep ql) acc) r = (some r, scoreHalves ql r) := by
    simp only [scanStep]
    rw [if_pos h1]
  rw [hstep]
  exact foldl_scan_stay ql rest _ hrest

lemma search_faq_of_fold (corpus : List FAQRecord) (query : Str) (r : FAQRecord)
    (hne : corpus ≠ [])
    (hfold : corpus.foldl (scanStep (toLowerStr query)) (none, 0) =
      (some r, scoreHalves (toLowerStr query) r)) :
    search_faq corpus query =
      if scoreHalves (toLowerStr query) r > 40 then r.answer else NO_MATCH := by
  unfold search_faq
  rw [if_neg (by simpa [List.isEmpty_iff] using hne)]
  simp only [hfold]

lemma search_faq_no_match_of_le (corpus : List FAQRecord) (query : Str)
    (h : ∀ s ∈ corpus, scoreHalves (toLowerStr query) s ≤ 40) :
    search_faq corpus query = NO_MATCH := by
  cases corpus with
  | nil => rfl
  | cons x xs =>
      have hle : ((x :: xs).foldl (scanStep (toLowerStr query)) (none, 0)).2 ≤ 40 :=
        foldl_scan_le (toLowerStr query) 40 (x :: xs) (none, 0) (Nat.zero_le 40) h
      unfold search_faq
      rw [if_neg (by simp)]
      rcases hopt : (x :: xs).foldl (scanStep (toLowerStr query)) (none, 0) with ⟨b, n⟩
      rw [hopt] at hle
      simp only [hopt]
      cases b with
      | none => rfl
      | some r => exact if_neg (not_lt.mpr hle)

/-- Claim C6: matching any query against the empty corpus returns the
NO_MATCH sentinel (the empty string), never an error. -/
theorem search_faq_empty_corpus (query : Str) : search_faq [] query = NO_MATCH := rfl

/-- Claim C1 (amended): on NO_MATCH from the FAQ matcher the handler falls
back to the AI generator and tags reply, response and the stored turn with
source Gemini AI (not the bare string AI); on a match it uses the matched
answer with source FAQ, returning (reply, source) with the updated
history. -/
theorem handle_turn_source_routing (corpus : List FAQRecord)
    (ai : Str → List Turn → Str) (history : List Turn) (message now : Str) :
    (search_faq corpus message = NO_MATCH →
      handle_turn corpus ai history message now =
        (ai message history, ("Gemini AI").data,
          history ++ [⟨message, ai message history, ("Gemini AI").data, now⟩])) ∧
    (search_faq corpus message ≠ NO_MATCH →
      handle_turn corpus ai history message now =
        (search_faq corpus message, ("FAQ").data,
          history ++ [⟨message, search_faq corpus message, ("FAQ").data, now⟩])) := by
  constructor
  · intro h
    simp [handle_turn, h]
  · intro h
    simp [handle_turn, h]

/-- Witness for claim C1: both branches at concrete inputs. -/
theorem handle_turn_source_routing_witness :
    (handle_turn [] (fun _ _ => ("gen").data) [] (("hi").data) (("t0").data)).2.1 =
      ("Gemini AI").data ∧
    (handle_turn [⟨("a a a a").data, ("ans").data, none⟩] (fun _ _ => ("gen").data) []
      (("a a a a").data) (("t0").data)).2.1 = ("FAQ").data := by
  constructor
  · have h := (handle_turn_source_routing [] (fun _ _ => ("gen").data) []
      (("hi").data) (("t0").data)).1 (by decide)
    rw [h]
  · have h := (handle_turn_source_routing [⟨("a a a a").data, ("ans").data, none⟩]
      (fun _ _ => ("gen").data) [] (("a a a a").data) (("t0").data)).2 (by decide)
    rw [h]

/-- Claim C1 counterexample: at a concrete input where the matcher returns
NO_MATCH, the source tag produced by the handler is the string Gemini AI,
which differs from the string AI stated by the claim. -/
theorem handle_turn_source_not_plain_AI :
    search_faq [] (("hello").data) = NO_MATCH ∧
    (handle_turn [] (fun _ _ => ("gen").data) [] (("hello").data) (("t0").data)).2.1 ≠
      ("AI").data := by
  decide

/-- The single record of end-to-end scenario 1 of the specification. -/
def passwordRecord : FAQRecord :=
  ⟨("How do I reset my password?").data, ("Visit Settings > Password.").data,
    some (("password reset").data)⟩

/-- Claim C2: evaluating the code on spec scenario 1. The query scores
15.5 (31 half-units) against the record, which does not exceed the
threshold constant 20 of the source, so search_faq returns NO_MATCH and
the handler routes to the AI fallback — while the comment on the source
comparison documents a threshold of 1, under which the scenario would
match as the spec states. -/
theorem scenario1_scores_below_threshold :
    scoreHalves (toLowerStr (("how do i reset my password").data)) passwordRecord = 31 ∧
    score (toLowerStr (("how do i reset my password").data)) passwordRecord = 31 / 2 ∧
    search_faq [passwordRecord] (("how do i reset my password").data) = NO_MATCH ∧
    (handle_turn [passwordRecord] (fun _ _ => ("gen").data) []
      (("how do i reset my password").data) (("t0").data)).2.1 = ("Gemini AI").data := by
  refine ⟨by decide, ?_, by decide, by decide⟩
  have h : scoreHalves (toLowerStr (("how do i reset my password").data)) passwordRecord = 31 :=
    by decide
  rw [score, h]
  norm_num

lemma countPairs_eq_product (qws fws : List Str) :
    countPairs qws fws =
      ((qws ×ˢ fws).filter
        (fun p => strContains p.2 p.1 || strContains p.1 p.2)).length := by
  induction qws with
  | nil => rfl
  | cons q qs ih =>
      simp only [countPairs, List.map_cons, List.sum_cons, List.product_cons,
        List.filter_append, List.length_append, List.filter_map, List.length_map,
        Function.comp_def] at ih ⊢
      rw [ih]

/-- Claim C3: the score of the source equals the specification formula —
2 per substring-related (query word, question word) pair, plus 1 per
trimmed lowercased keyword contained in the lowercased query (0 with no
keywords), plus 0.5 per substring-related (query word, answer word) pair —
and it is non-negative; the function is pure, so determinism and freedom
from side effects hold by construction. -/
theorem score_matches_spec_formula (query : Str) (r : FAQRecord) :
    score (toLowerStr query) r = specScore query r ∧
    0 ≤ score (toLowerStr query) r := by
  constructor
  · unfold score scoreHalves specScore
    cases hk : r.keywords with
    | none =>
        simp only [hk, countPairs_eq_product, List.filter_nil, List.length_nil]
        push_cast
        ring
    | some ks =>
        simp only [hk, countPairs_eq_product]
        push_cast
        ring
  · unfold score
    positivity

/-- Claim C4: a record whose score only reaches the threshold exactly (or
any corpus whose scores all stay at or below it) is not matched, while a
record scoring strictly above the threshold that is the unique maximum has
its answer returned. -/
theorem search_faq_threshold_strict (corpus : List FAQRecord) (query : Str)
    (r : FAQRecord) :
    ((∀ s ∈ corpus, score (toLowerStr query) s ≤ 20) →
      search_faq corpus query = NO_MATCH) ∧
    (r ∈ corpus → 20 < score (toLowerStr query) r →
      (∀ s ∈ corpus, s ≠ r →
        score (toLowerStr query) s < score (toLowerStr query) r) →
      search_faq corpus query = r.answer) := by
  constructor
  · intro h
    exact search_faq_no_match_of_le corpus query
      (fun s hs => (score_le_20_iff _ s).mp (h s hs))
  · intro hmem hgt hmax
    have hgt40 : 40 < scoreHalves (toLowerStr query) r := (twenty_lt_score_iff _ r).mp hgt
    have hfold := foldl_scan_unique (toLowerStr query) r corpus (none, 0) hmem
      (Nat.lt_of_le_of_lt (Nat.zero_le 40) hgt40)
      (fun s hs hne2 => (score_lt_score_iff _ s r).mp (hmax s hs hne2))
    rw [search_faq_of_fold corpus query r (List.ne_nil_of_mem hmem) hfold]
    exact if_pos hgt40

/-- Witness for claim C4: a record scoring exactly 20 against its query is
not matched; a record scoring 32 is matched and its answer returned. -/
theorem search_faq_threshold_strict_witness :
    search_faq [⟨("b c d e f g h j k l").data, ("#").data, none⟩]
      (("b c d e f g h j k l").data) = NO_MATCH ∧
    search_faq [⟨("a a a a").data, ("#").data, none⟩] (("a a a a").data) =
      ("#").data := by
  constructor
  · exact (search_faq_threshold_strict
      [⟨("b c d e f g h j k l").data, ("#").data, none⟩]
      (("b c d e f g h j k l").data)
      ⟨("b c d e f g h j k l").data, ("#").data, none⟩).1
      (by intro s hs
          rw [List.mem_singleton] at hs
          subst hs
          exact (score_le_20_iff _ _).mpr (by decide))
  · exact (search_faq_threshold_strict [⟨("a a a a").data, ("#").data, none⟩]
      (("a a a a").data) ⟨("a a a a").data, ("#").data, none⟩).2
      (by decide)
      ((twenty_lt_score_iff _ _).mpr (by decide))
      (by intro s hs hne
          rw [List.mem_singleton] at hs
          exact absurd hs hne)

/-- Claim C5: when the record r1 earlier in corpus order ties with a later
record r2, both strictly above the threshold and at the top of the scan
(records before r1 score strictly lower, nothing scores higher), the
matcher returns the answer of r1: the maximum is tracked with strict
greater-than, so ties keep the first-seen record. -/
theorem search_faq_tie_first (pre mid post : List FAQRecord) (r1 r2 : FAQRecord)
    (query : Str) :
    score (toLowerStr query) r1 = score (toLowerStr query) r2 →
    20 < score (toLowerStr query) r1 →
    (∀ s ∈ pre ++ r1 :: (mid ++ r2 :: post),
      score (toLowerStr query) s ≤ score (toLowerStr query) r1) →
    (∀ s ∈ pre, score (toLowerStr query) s < score (toLowerStr query) r1) →
    search_faq (pre ++ r1 :: (mid ++ r2 :: post)) query = r1.answer := by
  intro heq hgt hall hpre
  have hgt40 := (twenty_lt_score_iff _ r1).mp hgt
  have hsub : ∀ s, s ∈ mid ++ r2 :: post → s ∈ pre ++ r1 :: (mid ++ r2 :: post) := by
    intro s hs
    simp only [List.mem_append, List.mem_cons] at hs ⊢
    tauto
  have hfold := foldl_scan_first (toLowerStr query) r1 pre (mid ++ r2 :: post) (none, 0)
    (Nat.lt_of_le_of_lt (Nat.zero_le 40) hgt40)
    (fun s hs => (score_lt_score_iff _ s r1).mp (hpre s hs))
    (fun s hs => (score_le_score_iff _ s r1).mp (hall s (hsub s hs)))
  have hne : pre ++ r1 :: (mid ++ r2 :: post) ≠ [] := by simp
  rw [search_faq_of_fold _ query r1 hne hfold]
  exact if_pos hgt40

/-- Witness for claim C5: two records tied at score 32 above the threshold;
the first one in corpus order wins. -/
theorem search_faq_tie_first_witness :
    search_faq [⟨("a a a a").data, ("one").data, none⟩,
      ⟨("a a a a").data, ("two").data, none⟩] (("a a a a").data) = ("one").data := by
  have h := search_faq_tie_first [] [] [] ⟨("a a a a").data, ("one").data, none⟩
    ⟨("a a a a").data, ("two").data, none⟩ (("a a a a").data)
    ((score_eq_score_iff _ _ _).mpr (by decide))
    ((twenty_lt_score_iff _ _).mpr (by decide))
    (by intro s hs
        simp only [List.nil_append, List.mem_cons, List.not_mem_nil, or_false] at hs
        rcases hs with h1 | h2
        · subst h1; exact le_refl _
        · subst h2; exact (score_le_score_iff _ _ _).mpr (by decide))
    (fun s hs => absurd hs (List.not_mem_nil s))
  exact h

/-- Claim C10: a record with the empty string as answer that wins the scan
strictly above the threshold makes search_faq return the empty string,
which is indistinguishable from the NO_MATCH sentinel, so the handler
treats it as no match and falls back to the AI with source Gemini AI. -/
theorem empty_answer_match_falls_back (corpus : List FAQRecord)
    (ai : Str → List Turn → Str) (history : List Turn) (query now : Str)
    (r : FAQRecord) :
    r ∈ corpus → r.answer = [] → 20 < score (toLowerStr query) r →
    (∀ s ∈ corpus, s ≠ r →
      score (toLowerStr query) s < score (toLowerStr query) r) →
    search_faq corpus query = NO_MATCH ∧
    (handle_turn corpus ai history query now).1 = ai query history ∧
    (handle_turn corpus ai history query now).2.1 = ("Gemini AI").data := by
  intro hmem hans hgt hmax
  have hgt40 := (twenty_lt_score_iff _ r).mp hgt
  have hfold := foldl_scan_unique (toLowerStr query) r corpus (none, 0) hmem
    (Nat.lt_of_le_of_lt (Nat.zero_le 40) hgt40)
    (fun s hs hne => (score_lt_score_iff _ s r).mp (hmax s hs hne))
  have hsearch : search_faq corpus query = NO_MATCH := by
    rw [search_faq_of_fold corpus query r (List.ne_nil_of_mem hmem) hfold]
    rw [if_pos hgt40, hans]
    rfl
  refine ⟨hsearch, ?_, ?_⟩ <;> simp [handle_turn, hsearch]

/-- Witness for claim C10: a one-record corpus whose record has the empty
answer and scores 32; the handler routes to the AI fallback. -/
theorem empty_answer_match_falls_back_witness :
    search_faq [⟨("a a a a").data, [], none⟩] (("a a a a").data) = NO_MATCH ∧
    (handle_turn [⟨("a a a a").data, [], none⟩] (fun _ _ => ("gen").data) []
      (("a a a a").data) (("t0").data)).1 = ("gen").data ∧
    (handle_turn [⟨("a a a a").data, [], none⟩] (fun _ _ => ("gen").data) []
      (("a a a a").data) (("t0").data)).2.1 = ("Gemini AI").data :=
  empty_answer_match_falls_back [⟨("a a a a").data, [], none⟩]
    (fun _ _ => ("gen").data) [] (("a a a a").data) (("t0").data)
    ⟨("a a a a").data, [], none⟩
    (by decide) rfl ((twenty_lt_score_iff _ _).mpr (by decide))
    (by intro s hs hne
        rw [List.mem_singleton] at hs
        exact absurd hs hne)

/-- Claim C7: generate_response is a total function into strings; when the
underlying generation client raises, the result is the fixed apology text
with the error message of the client embedded as a literal substring (it is
the suffix of the reply). -/
theorem generate_response_embeds_error (client : Str → Except Str Str)
    (userMessage : Str) (history : List Turn) (e : Str) :
    client (build_context history userMessage) = Except.error e →
    generate_response client userMessage history = apologyPrefix ++ e ∧
    ∃ p, generate_response client userMessage history = p ++ e := by
  intro h
  constructor
  · simp [generate_response, h]
  · exact ⟨apologyPrefix, by simp [generate_response, h]⟩

/-- Witness for claim C7: a fault-injected client that always raises. -/
theorem generate_response_embeds_error_witness :
    generate_response (fun _ => Except.error (("boom").data)) (("hi").data) [] =
      apologyPrefix ++ ("boom").data ∧
    ∃ p, generate_response (fun _ => Except.error (("boom").data)) (("hi").data) [] =
      p ++ ("boom").data :=
  generate_response_embeds_error (fun _ => Except.error (("boom").data))
    (("hi").data) [] (("boom").data) rfl

lemma drop_eq_reverse_take (l : List Turn) (n : Nat) :
    l.drop (l.length - n) = (l.reverse.take n).reverse := by
  rw [List.take_reverse, List.reverse_reverse]

/-- Claim C8: the built context is the fixed system prompt, then (for a
non-empty history) a header followed by exactly the last min(5, length)
turns rendered as User/Assistant blocks in chronological order, then the
current message under its own label; the rendered window is a suffix of the
history, so prior turns keep their original order and contents, and the
history itself is not modified (the function is pure). -/
theorem build_context_window (history : List Turn) (userMessage : Str) :
    build_context history userMessage =
      systemPrompt ++ ("\n\n").data ++
      (if history = [] then []
       else ("Previous conversation:\n").data ++
         (((history.reverse.take 5).reverse).map renderTurn).flatten) ++
      (("Current user message: ").data ++ userMessage) ∧
    ((history.reverse.take 5).reverse).length = min 5 history.length ∧
    (history.reverse.take 5).reverse <:+ history := by
  refine ⟨?_, ?_, ?_⟩
  · unfold build_context
    rw [← drop_eq_reverse_take]
    cases history with
    | nil => simp
    | cons t ts => simp [List.append_assoc]
  · rw [← drop_eq_reverse_take, List.length_drop]
    omega
  · rw [← drop_eq_reverse_take]
    exact List.drop_suffix _ _

/-- Claim C9: the updated history handed back for persistence is exactly
the prior history with one new turn appended at the end: the length grows
by one and the prefix of the old length is the unchanged old history, every
prior turn in its original position. -/
theorem handle_turn_appends_exactly_one (corpus : List FAQRecord)
    (ai : Str → List Turn → Str) (history : List Turn) (message now : Str) :
    ∃ t : Turn,
      (handle_turn corpus ai history message now).2.2 = history ++ [t] ∧
      (handle_turn corpus ai history message now).2.2.length = history.length + 1 ∧
      (handle_turn corpus ai history message now).2.2.take history.length = history := by
  refine ⟨⟨message, (handle_turn corpus ai history message now).1,
    (handle_turn corpus ai history message now).2.1, now⟩, ?_, ?_, ?_⟩
  · rfl
  · simp [handle_turn]
  · simp [handle_turn, List.take_left]
